import Mathlib

/-!
# ArtRegister backend — shallow embedding and verification

The system under study is a small art-piece provenance registry backed by a
sqlite database with three tables: `users(name, user_id)`,
`art_pieces(name, piece_uid, creator_id, owner_id, on_sale)` and
`transactions(piece_uid, old_owner_id, new_owner_id, dt)`.

The embedding models each table as a list of rows kept in insertion (rowid)
order, which is the order sqlite returns rows of these tables for the plain
`SELECT ... WHERE` queries the code issues.  The `PieceMgr` methods of
`PieceMgr.py` and the HTTP handler bodies of `fuckme.py` (taken from after
their parameter-presence validation, with caller-supplied ids already parsed
by `int(...)`) become functions on this state.  Python-specific behaviour the
code relies on is modelled explicitly: truthiness of `Optional` values (where
`None`, `0`, `""` and `[]` are falsy), result rows exposed as key/value
dictionaries, `KeyError` on a missing dictionary key, and the fact that
`cursor.rowcount` is `-1` after a `SELECT` but counts matched rows after an
`UPDATE`.
-/

namespace ArtRegister

/-- A row of the `users` table: `(name, user_id)`. -/
structure User where
  name : String
  user_id : Nat
  deriving Repr, DecidableEq

/-- A row of the `art_pieces` table:
`(name, piece_uid, creator_id, owner_id, on_sale)`. -/
structure Piece where
  name : String
  piece_uid : String
  creator_id : Nat
  owner_id : Nat
  on_sale : Bool
  deriving Repr, DecidableEq

/-- A row of the `transactions` table:
`(piece_uid, old_owner_id, new_owner_id, dt)`; `dt` is the timestamp at
which the transfer was recorded. -/
structure Transaction where
  piece_uid : String
  old_owner_id : Nat
  new_owner_id : Nat
  dt : Nat
  deriving Repr, DecidableEq

/-- The database state: the three tables, rows in insertion (rowid) order. -/
structure DB where
  users : List User
  pieces : List Piece
  transactions : List Transaction
  deriving Repr, DecidableEq

/-- The empty database, as created on first use. -/
def initDB : DB := ⟨[], [], []⟩

/-- `SELECT MAX(user_id) FROM users`, with the `NULL` of an empty table read
back as `0` by `newUser`. -/
def maxUserIdOf (s : DB) : Nat :=
  (s.users.map (fun u => u.user_id)).foldl max 0

/-- `PieceMgr.newUser`: computes `MAX(user_id) + 1` (starting from `1` when
no users exist), refuses ids `>= MAX_USER_ID` (the configured bound
`maxUserId`) by returning `None` without inserting, and otherwise inserts
the row and returns the new id. -/
def newUser (maxUserId : Nat) (s : DB) (name : String) : Option Nat × DB :=
  let user_id := maxUserIdOf s + 1
  if maxUserId ≤ user_id then (none, s)
  else (some user_id, { s with users := s.users ++ [⟨name, user_id⟩] })

/-- `PieceMgr.findUserIdByName`: first row (in insertion order) whose `name`
matches, as `fetchone` returns it. -/
def findUserIdByName (s : DB) (name : String) : Option Nat :=
  (s.users.find? (fun u => decide (u.name = name))).map (fun u => u.user_id)

/-- `PieceMgr.findUserNameById`: first row whose `user_id` matches. -/
def findUserNameById (s : DB) (user_id : Nat) : Option String :=
  (s.users.find? (fun u => decide (u.user_id = user_id))).map (fun u => u.name)

/-- A Python value as stored in the result dictionaries the manager builds. -/
inductive Val where
  | str (s : String)
  | int (n : Nat)
  | bool (b : Bool)
  | pyNone
  deriving Repr, DecidableEq

/-- An `Optional[str]` name-resolution result placed into a dictionary:
`None` becomes the Python `None` value. -/
def optName : Option String → Val
  | some n => Val.str n
  | none => Val.pyNone

/-- `PieceMgr.findPieceByUid`: fetches the first `art_pieces` row whose
`piece_uid` matches and returns the Python dictionary with exactly the keys
`name`, `piece_uid`, `creator`, `owner`, `on_sale`, where `creator` and
`owner` are resolved to user names at read time (`None` when dangling). -/
def findPieceByUid (s : DB) (piece_uid : String) : Option (List (String × Val)) :=
  (s.pieces.find? (fun p => decide (p.piece_uid = piece_uid))).map (fun r =>
    [("name", Val.str r.name),
     ("piece_uid", Val.str r.piece_uid),
     ("creator", optName (findUserNameById s r.creator_id)),
     ("owner", optName (findUserNameById s r.owner_id)),
     ("on_sale", Val.bool r.on_sale)])

/-- The row-wise effect of `UPDATE art_pieces SET on_sale = ? WHERE
piece_uid = ?`: rows matching the uid get the new flag, others are kept. -/
def setSale (piece_uid : String) (is_on_sale : Bool) (p : Piece) : Piece :=
  if p.piece_uid = piece_uid then { p with on_sale := is_on_sale } else p

/-- `PieceMgr.markOnSale`: `UPDATE art_pieces SET on_sale = ? WHERE
piece_uid = ?`; sqlite3 reports `rowcount` as the number of rows the update
matched (a row counts even if the stored value is unchanged), and the method
returns `rowcount > 0`. -/
def markOnSale (s : DB) (piece_uid : String) (is_on_sale : Bool) : Bool × DB :=
  let rowcount := s.pieces.countP (fun p => decide (p.piece_uid = piece_uid))
  (decide (0 < rowcount),
   { s with pieces := s.pieces.map (setSale piece_uid is_on_sale) })

/-- `PieceMgr.registerNewPiece`: returns `False` without inserting when
`findPieceByUid` already finds the uid (the non-empty dict is truthy);
otherwise inserts `(name, piece_uid, creator_id, creator_id, False)` —
`owner_id` starts equal to `creator_id` and `on_sale` starts `False`. -/
def registerNewPiece (s : DB) (name piece_uid : String) (creator_id : Nat) : Bool × DB :=
  if (findPieceByUid s piece_uid).isSome then (false, s)
  else (true, { s with pieces := s.pieces ++ [⟨name, piece_uid, creator_id, creator_id, false⟩] })

/-- One row of `PieceMgr.getTransactions`'s result: owner names resolved at
read time plus the stored timestamp. -/
structure TransView where
  old_owner : Val
  new_owner : Val
  dt : Nat
  deriving Repr, DecidableEq

/-- `PieceMgr.getTransactions`: selects all `transactions` rows of the uid in
insertion order.  The `cursor.rowcount == 0` early return is dead code: in
sqlite3 `rowcount` stays `-1` after a `SELECT`, so an empty history yields
`[]`, never `None`. -/
def getTransactions (s : DB) (piece_uid : String) : Option (List TransView) :=
  let rowcount : Int := -1
  if rowcount = 0 then none
  else some ((s.transactions.filter (fun t => decide (t.piece_uid = piece_uid))).map
    (fun r => ⟨optName (findUserNameById s r.old_owner_id),
               optName (findUserNameById s r.new_owner_id), r.dt⟩))

/-- The row-wise effect of setting `owner_id` on the rows matching a uid. -/
def setOwner (piece_uid : String) (new_owner_id : Nat) (p : Piece) : Piece :=
  if p.piece_uid = piece_uid then { p with owner_id := new_owner_id } else p

/-- Modelled from the spec: `PieceMgr.newTransaction` is called by the
`new_transaction` handler of `fuckme.py` but is defined nowhere in the
source.  Spec §4.1 `RecordTransaction`: it fails (returns `False`) when the
piece does not exist or `old_owner_id` differs from the piece's current
`owner_id`, leaving all state unchanged; on success it atomically appends
one `Transaction` record carrying the current timestamp `now` and sets the
piece's `owner_id` to `new_owner_id`, returning `True`. -/
def newTransaction (s : DB) (piece_uid : String) (old_owner_id new_owner_id : Nat)
    (now : Nat) : Bool × DB :=
  match s.pieces.find? (fun p => decide (p.piece_uid = piece_uid)) with
  | none => (false, s)
  | some p =>
    if p.owner_id = old_owner_id then
      (true, { s with
        pieces := s.pieces.map (setOwner piece_uid new_owner_id),
        transactions := s.transactions ++ [⟨piece_uid, old_owner_id, new_owner_id, now⟩] })
    else (false, s)

/-- The wire statuses of `fuckme.py`. -/
inductive Status where
  | OK
  | NOT_FOUND
  | ALREADY_EXISTS
  | VALUE_ERROR
  deriving Repr, DecidableEq

/-- A Python exception escaping a handler body. -/
inductive PyErr where
  | keyError (k : String)
  deriving Repr, DecidableEq

/-- Python falsiness of an `Optional[int]`: `None` and `0` are falsy. -/
def pyFalsy : Option Nat → Bool
  | none => true
  | some n => decide (n = 0)

/-- Python falsiness of an `Optional[str]`: `None` and `""` are falsy. -/
def pyFalsyStr : Option String → Bool
  | none => true
  | some s => decide (s = "")

/-- Python falsiness of an `Optional[list]`: `None` and `[]` are falsy. -/
def pyFalsyList {α : Type} : Option (List α) → Bool
  | none => true
  | some l => l.isEmpty

/-- The `/get_user_id` handler: an absent `username` query parameter arrives
as the empty string and is rejected; a falsy lookup result triggers creation
of a new user; a falsy creation result is reported as `VALUE_ERROR`.  The
result pairs the wire payload (status and returned id) with the new state. -/
def get_user_id (maxUserId : Nat) (s : DB) (username : String) :
    (Status × Option Nat) × DB :=
  if username = "" then ((Status.VALUE_ERROR, none), s)
  else
    let userId := findUserIdByName s username
    if pyFalsy userId then
      let r := newUser maxUserId s username
      if pyFalsy r.1 then ((Status.VALUE_ERROR, none), r.2)
      else ((Status.OK, r.1), r.2)
    else ((Status.OK, userId), s)

/-- The `/new_piece` handler, from after its parameter-presence validation
(`user_id` already parsed): rejects an unknown creator with `NOT_FOUND`
(the check is `findUserNameById(...) is None`), then delegates to
`registerNewPiece`, mapping `False` to `ALREADY_EXISTS`. -/
def new_piece (s : DB) (user_id : Nat) (piece_name piece_uid : String) : Status × DB :=
  if (findUserNameById s user_id).isNone then (Status.NOT_FOUND, s)
  else
    let r := registerNewPiece s piece_name piece_uid user_id
    if r.1 = false then (Status.ALREADY_EXISTS, r.2) else (Status.OK, r.2)

/-- The `/mark_on_sale` handler, from after its parameter-presence
validation (`user_id` already parsed, `is_on_sale` the raw form string):
checks the caller exists (Python truthiness of the name), fetches the piece
dictionary, then reads `piece_info["owner_id"]` — a key `findPieceByUid`
never produces, so the access is modelled as raising `KeyError`. -/
def mark_on_sale (s : DB) (user_id : Nat) (piece_uid : String) (is_on_sale : String) :
    Except PyErr (Status × DB) :=
  if pyFalsyStr (findUserNameById s user_id) then Except.ok (Status.NOT_FOUND, s)
  else
    match findPieceByUid s piece_uid with
    | none => Except.ok (Status.NOT_FOUND, s)
    | some piece_info =>
      match piece_info.lookup "owner_id" with
      | none => Except.error (PyErr.keyError "owner_id")
      | some v =>
        if v ≠ Val.int user_id then Except.ok (Status.VALUE_ERROR, s)
        else
          let flag := is_on_sale.toLower = "true"
          Except.ok (Status.OK, (markOnSale s piece_uid flag).2)

/-- The `/get_piece_transactions` handler, from after its parameter-presence
validation: a falsy `getTransactions` result (`None` or `[]`) is reported as
`NOT_FOUND`, otherwise the transaction list is returned with `OK`. -/
def get_piece_transactions (s : DB) (piece_uid : String) :
    Status × Option (List TransView) :=
  let result := getTransactions s piece_uid
  if pyFalsyList result then (Status.NOT_FOUND, none)
  else (Status.OK, result)

/-- The `/new_transaction` handler, from after its parameter-presence
validation: checks both users exist (Python truthiness of the names), then
delegates to the spec-modelled `newTransaction`; `True` maps to `OK`,
`False` to `VALUE_ERROR`. -/
def new_transaction (s : DB) (piece_uid : String) (old_owner_id new_owner_id : Nat)
    (now : Nat) : Status × DB :=
  if pyFalsyStr (findUserNameById s old_owner_id) then (Status.NOT_FOUND, s)
  else if pyFalsyStr (findUserNameById s new_owner_id) then (Status.NOT_FOUND, s)
  else
    let r := newTransaction s piece_uid old_owner_id new_owner_id now
    if r.1 then (Status.OK, r.2) else (Status.VALUE_ERROR, r.2)

/-- One state-mutating core operation; the timestamp of a transfer is
carried by the event. -/
inductive Op where
  | newUserOp (name : String)
  | registerPieceOp (name piece_uid : String) (creator_id : Nat)
  | markOnSaleOp (piece_uid : String) (flag : Bool)
  | newTransactionOp (piece_uid : String) (old_owner_id new_owner_id now : Nat)
  deriving Repr, DecidableEq

/-- The state reached by one operation (succeeding or failing). -/
def applyOp (maxUserId : Nat) (s : DB) : Op → DB
  | Op.newUserOp n => (newUser maxUserId s n).2
  | Op.registerPieceOp n u c => (registerNewPiece s n u c).2
  | Op.markOnSaleOp u f => (markOnSale s u f).2
  | Op.newTransactionOp u o n t => (newTransaction s u o n t).2

/-- The state reached by a sequence of operations. -/
def run (maxUserId : Nat) (s : DB) : List Op → DB
  | [] => s
  | op :: ops => run maxUserId (applyOp maxUserId s op) ops

/-- The last transaction recorded for a given uid, if any. -/
def lastTransFor (ts : List Transaction) (uid : String) : Option Transaction :=
  (ts.filter (fun t => decide (t.piece_uid = uid))).getLast?

/-- The owner a piece must have according to the transaction log: the
`new_owner_id` of its most recent transaction, or its `creator_id` when no
transaction for its uid exists. -/
def specOwner (ts : List Transaction) (p : Piece) : Nat :=
  match lastTransFor ts p.piece_uid with
  | some t => t.new_owner_id
  | none => p.creator_id

section Lemmas

/-- The initial accumulator is a lower bound of a left fold by `max`. -/
theorem foldl_max_init_le (l : List Nat) (a : Nat) : a ≤ l.foldl max a := by
  induction l generalizing a with
  | nil => exact Nat.le_refl a
  | cons x xs ih => exact Nat.le_trans (Nat.le_max_left a x) (ih (max a x))

/-- Every member of a list is bounded by a left fold by `max`. -/
theorem mem_le_foldl_max (l : List Nat) (a : Nat) : ∀ x ∈ l, x ≤ l.foldl max a := by
  induction l generalizing a with
  | nil => intro x hx; cases hx
  | cons y ys ih =>
    intro x hx
    rcases List.mem_cons.mp hx with h | h
    · subst h
      exact Nat.le_trans (Nat.le_max_right a x) (foldl_max_init_le ys (max a x))
    · exact ih (max a y) x h

/-- Every user id in the store is bounded by `maxUserIdOf`. -/
theorem user_id_le_maxUserIdOf (s : DB) : ∀ u ∈ s.users, u.user_id ≤ maxUserIdOf s := by
  intro u hu
  exact mem_le_foldl_max _ 0 u.user_id (List.mem_map_of_mem (fun v => v.user_id) hu)

/-- `setSale` never changes a row's `piece_uid`. -/
theorem setSale_piece_uid (uid : String) (f : Bool) (p : Piece) :
    (setSale uid f p).piece_uid = p.piece_uid := by
  unfold setSale
  split <;> rfl

/-- `setSale` never changes a row's `creator_id`. -/
theorem setSale_creator_id (uid : String) (f : Bool) (p : Piece) :
    (setSale uid f p).creator_id = p.creator_id := by
  unfold setSale
  split <;> rfl

/-- `setSale` never changes a row's `owner_id`. -/
theorem setSale_owner_id (uid : String) (f : Bool) (p : Piece) :
    (setSale uid f p).owner_id = p.owner_id := by
  unfold setSale
  split <;> rfl

/-- `setOwner` never changes a row's `piece_uid`. -/
theorem setOwner_piece_uid (uid : String) (o : Nat) (p : Piece) :
    (setOwner uid o p).piece_uid = p.piece_uid := by
  unfold setOwner
  split <;> rfl

/-- `setOwner` never changes a row's `creator_id`. -/
theorem setOwner_creator_id (uid : String) (o : Nat) (p : Piece) :
    (setOwner uid o p).creator_id = p.creator_id := by
  unfold setOwner
  split <;> rfl

/-- `specOwner` only looks at a piece's `piece_uid` and `creator_id`. -/
theorem specOwner_congr (ts : List Transaction) (p q : Piece)
    (huid : q.piece_uid = p.piece_uid) (hcre : q.creator_id = p.creator_id) :
    specOwner ts q = specOwner ts p := by
  unfold specOwner lastTransFor
  rw [huid, hcre]

/-- Appending a transaction for a different uid does not change the last
transaction of a piece. -/
theorem lastTransFor_append_other (ts : List Transaction) (t : Transaction) (uid : String)
    (hne : t.piece_uid ≠ uid) :
    lastTransFor (ts ++ [t]) uid = lastTransFor ts uid := by
  unfold lastTransFor
  rw [List.filter_append]
  have : [t].filter (fun r => decide (r.piece_uid = uid)) = [] := by
    simp [hne]
  rw [this, List.append_nil]

/-- Appending a transaction for a uid makes it that uid's last transaction. -/
theorem lastTransFor_append_same (ts : List Transaction) (t : Transaction) :
    lastTransFor (ts ++ [t]) t.piece_uid = some t := by
  unfold lastTransFor
  rw [List.filter_append]
  have : [t].filter (fun r => decide (r.piece_uid = t.piece_uid)) = [t] := by
    simp
  rw [this, List.getLast?_concat]

end Lemmas

/-- The invariant every reachable database state satisfies: user ids are
strictly increasing down the store and positive, piece uids are pairwise
distinct, every transaction references an existing piece, and every piece's
`owner_id` agrees with the transaction log via `specOwner`. -/
structure Inv (s : DB) : Prop where
  usersSorted : (s.users.map (fun u => u.user_id)).Pairwise (· < ·)
  usersPos : ∀ u ∈ s.users, 1 ≤ u.user_id
  uidsNodup : (s.pieces.map (fun p => p.piece_uid)).Nodup
  transRef : ∀ t ∈ s.transactions, ∃ p ∈ s.pieces, p.piece_uid = t.piece_uid
  ownerOK : ∀ p ∈ s.pieces, p.owner_id = specOwner s.transactions p

/-- The empty database satisfies the invariant. -/
theorem inv_initDB : Inv initDB := by
  refine ⟨?_, ?_, ?_, ?_, ?_⟩ <;> simp [initDB]

/-- `newUser` preserves the invariant. -/
theorem inv_newUser (m : Nat) (s : DB) (n : String) (h : Inv s) :
    Inv (newUser m s n).2 := by
  by_cases hc : m ≤ maxUserIdOf s + 1
  · have hst : (newUser m s n).2 = s := by simp [newUser, hc]
    rw [hst]
    exact h
  · have hst : (newUser m s n).2 = { s with users := s.users ++ [⟨n, maxUserIdOf s + 1⟩] } := by
      simp [newUser, hc]
    rw [hst]
    refine ⟨?_, ?_, h.uidsNodup, h.transRef, h.ownerOK⟩
    · rw [List.map_append, List.pairwise_append]
      refine ⟨h.usersSorted, by simp, ?_⟩
      intro a ha b hb
      simp only [List.map_cons, List.map_nil, List.mem_singleton] at hb
      subst hb
      obtain ⟨u, hu, rfl⟩ := List.mem_map.mp ha
      have := user_id_le_maxUserIdOf s u hu
      omega
    · intro u hu
      rcases List.mem_append.mp hu with h1 | h1
      · exact h.usersPos u h1
      · simp only [List.mem_singleton] at h1
        subst h1
        exact Nat.succ_le_succ (Nat.zero_le _)

/-- `registerNewPiece` preserves the invariant. -/
theorem inv_registerNewPiece (s : DB) (n uid : String) (cid : Nat) (h : Inv s) :
    Inv (registerNewPiece s n uid cid).2 := by
  cases hfind : s.pieces.find? (fun p => decide (p.piece_uid = uid)) with
  | some p =>
    have hst : (registerNewPiece s n uid cid).2 = s := by
      simp [registerNewPiece, findPieceByUid, hfind]
    rw [hst]
    exact h
  | none =>
    have hno : ∀ p ∈ s.pieces, ¬ p.piece_uid = uid := by
      intro p hp
      have := List.find?_eq_none.mp hfind p hp
      simpa using this
    have hst : (registerNewPiece s n uid cid).2
        = { s with pieces := s.pieces ++ [⟨n, uid, cid, cid, false⟩] } := by
      simp [registerNewPiece, findPieceByUid, hfind]
    rw [hst]
    have hnotr : ∀ t ∈ s.transactions, ¬ t.piece_uid = uid := by
      intro t ht heq
      obtain ⟨p, hp, hpe⟩ := h.transRef t ht
      exact hno p hp (hpe.trans heq)
    refine ⟨h.usersSorted, h.usersPos, ?_, ?_, ?_⟩
    · rw [List.map_append, List.nodup_append]
      refine ⟨h.uidsNodup, by simp, ?_⟩
      intro a ha hb
      simp only [List.map_cons, List.map_nil, List.mem_singleton] at hb
      subst hb
      obtain ⟨p, hp, hpe⟩ := List.mem_map.mp ha
      exact hno p hp hpe
    · intro t ht
      obtain ⟨p, hp, hpe⟩ := h.transRef t ht
      exact ⟨p, List.mem_append_left _ hp, hpe⟩
    · intro p hp
      rcases List.mem_append.mp hp with h1 | h1
      · exact h.ownerOK p h1
      · simp only [List.mem_singleton] at h1
        subst h1
        have hfil : s.transactions.filter (fun t => decide (t.piece_uid = uid)) = [] := by
          rw [List.filter_eq_nil_iff]
          intro t ht
          simpa using hnotr t ht
        simp [specOwner, lastTransFor, hfil]

/-- `markOnSale` preserves the invariant. -/
theorem inv_markOnSale (s : DB) (uid : String) (f : Bool) (h : Inv s) :
    Inv (markOnSale s uid f).2 := by
  have hst : (markOnSale s uid f).2 = { s with pieces := s.pieces.map (setSale uid f) } := rfl
  rw [hst]
  refine ⟨h.usersSorted, h.usersPos, ?_, ?_, ?_⟩
  · rw [List.map_map]
    have he : ((fun p : Piece => p.piece_uid) ∘ setSale uid f) = fun p : Piece => p.piece_uid := by
      funext p
      exact setSale_piece_uid uid f p
    rw [he]
    exact h.uidsNodup
  · intro t ht
    obtain ⟨p, hp, hpe⟩ := h.transRef t ht
    refine ⟨setSale uid f p, List.mem_map_of_mem _ hp, ?_⟩
    rw [setSale_piece_uid]
    exact hpe
  · intro q hq
    obtain ⟨p, hp, rfl⟩ := List.mem_map.mp hq
    rw [specOwner_congr s.transactions p (setSale uid f p)
      (setSale_piece_uid uid f p) (setSale_creator_id uid f p)]
    rw [setSale_owner_id]
    exact h.ownerOK p hp

/-- `newTransaction` preserves the invariant. -/
theorem inv_newTransaction (s : DB) (uid : String) (oldo newo now : Nat) (h : Inv s) :
    Inv (newTransaction s uid oldo newo now).2 := by
  cases hfind : s.pieces.find? (fun p => decide (p.piece_uid = uid)) with
  | none =>
    have hst : (newTransaction s uid oldo newo now).2 = s := by
      simp [newTransaction, hfind]
    rw [hst]
    exact h
  | some p =>
    by_cases ho : p.owner_id = oldo
    case neg =>
      have hst : (newTransaction s uid oldo newo now).2 = s := by
        simp [newTransaction, hfind, ho]
      rw [hst]
      exact h
    case pos =>
      have hst : (newTransaction s uid oldo newo now).2 = { s with
          pieces := s.pieces.map (setOwner uid newo),
          transactions := s.transactions ++ [⟨uid, oldo, newo, now⟩] } := by
        simp [newTransaction, hfind, ho]
      rw [hst]
      refine ⟨h.usersSorted, h.usersPos, ?_, ?_, ?_⟩
      · rw [List.map_map]
        have he : ((fun p : Piece => p.piece_uid) ∘ setOwner uid newo)
            = fun p : Piece => p.piece_uid := by
          funext q
          exact setOwner_piece_uid uid newo q
        rw [he]
        exact h.uidsNodup
      · intro t ht
        rcases List.mem_append.mp ht with h1 | h1
        · obtain ⟨q, hq, hqe⟩ := h.transRef t h1
          refine ⟨setOwner uid newo q, List.mem_map_of_mem _ hq, ?_⟩
          rw [setOwner_piece_uid]
          exact hqe
        · simp only [List.mem_singleton] at h1
          subst h1
          refine ⟨setOwner uid newo p,
            List.mem_map_of_mem _ (List.mem_of_find?_eq_some hfind), ?_⟩
          rw [setOwner_piece_uid]
          simpa using List.find?_some hfind
      · intro q hq
        obtain ⟨r, hr, rfl⟩ := List.mem_map.mp hq
        by_cases hc : r.piece_uid = uid
        · have hqu : (setOwner uid newo r).piece_uid = uid := by
            rw [setOwner_piece_uid]
            exact hc
          have howner : (setOwner uid newo r).owner_id = newo := by
            unfold setOwner
            rw [if_pos hc]
          unfold specOwner
          rw [hqu, howner]
          have : lastTransFor (s.transactions ++ [⟨uid, oldo, newo, now⟩]) uid
              = some ⟨uid, oldo, newo, now⟩ :=
            lastTransFor_append_same s.transactions ⟨uid, oldo, newo, now⟩
          rw [this]
        · have hqu : (setOwner uid newo r).piece_uid = r.piece_uid := setOwner_piece_uid uid newo r
          have hqr : setOwner uid newo r = r := by
            unfold setOwner
            rw [if_neg hc]
          rw [hqr]
          unfold specOwner
          rw [lastTransFor_append_other s.transactions ⟨uid, oldo, newo, now⟩ r.piece_uid
            (by simpa using fun he => hc he.symm)]
          exact h.ownerOK r hr

/-- Every operation preserves the invariant. -/
theorem inv_applyOp (m : Nat) (s : DB) (op : Op) (h : Inv s) : Inv (applyOp m s op) := by
  cases op with
  | newUserOp n => exact inv_newUser m s n h
  | registerPieceOp n u c => exact inv_registerNewPiece s n u c h
  | markOnSaleOp u f => exact inv_markOnSale s u f h
  | newTransactionOp u o n t => exact inv_newTransaction s u o n t h

/-- The invariant holds along any execution. -/
theorem inv_run_of_inv (m : Nat) (ops : List Op) (s : DB) (h : Inv s) : Inv (run m s ops) := by
  induction ops generalizing s with
  | nil => exact h
  | cons op ops ih => exact ih (applyOp m s op) (inv_applyOp m s op h)

/-- Every state reachable from the empty database satisfies the invariant. -/
theorem inv_run (m : Nat) (ops : List Op) : Inv (run m initDB ops) :=
  inv_run_of_inv m ops initDB inv_initDB

/-- C10: `PieceMgr.markOnSale(uid, flag)` returns `true` iff a piece with
that uid exists; its only mutation is rewriting the `on_sale` field of the
pieces matching the uid: the Users and Transactions stores are unchanged,
every non-matching piece is unchanged, and a matching piece keeps all fields
but `on_sale`; no caller identity is consulted. -/
theorem markOnSale_spec (s : DB) (uid : String) (f : Bool) :
    ((markOnSale s uid f).1 = true ↔ ∃ p ∈ s.pieces, p.piece_uid = uid) ∧
    (markOnSale s uid f).2.users = s.users ∧
    (markOnSale s uid f).2.transactions = s.transactions ∧
    (markOnSale s uid f).2.pieces = s.pieces.map (setSale uid f) ∧
    (∀ p ∈ s.pieces, p.piece_uid ≠ uid → p ∈ (markOnSale s uid f).2.pieces) ∧
    (∀ p ∈ s.pieces, p.piece_uid = uid →
      { p with on_sale := f } ∈ (markOnSale s uid f).2.pieces) := by
  refine ⟨?_, rfl, rfl, rfl, ?_, ?_⟩
  · simp [markOnSale, List.countP_pos_iff]
  · intro p hp hne
    have h1 : setSale uid f p ∈ (markOnSale s uid f).2.pieces :=
      List.mem_map_of_mem _ hp
    unfold setSale at h1
    rwa [if_neg hne] at h1
  · intro p hp he
    have h1 : setSale uid f p ∈ (markOnSale s uid f).2.pieces :=
      List.mem_map_of_mem _ hp
    unfold setSale at h1
    rwa [if_pos he] at h1

/-- Witness for C10 at a concrete store of one user and one piece. -/
theorem markOnSale_spec_witness :
    (markOnSale ⟨[⟨"alice", 1⟩], [⟨"Sunflowers", "TAG-001", 1, 1, false⟩], []⟩
        "TAG-001" true).1 = true ∧
    (markOnSale ⟨[⟨"alice", 1⟩], [⟨"Sunflowers", "TAG-001", 1, 1, false⟩], []⟩
        "TAG-001" true).2.pieces = [⟨"Sunflowers", "TAG-001", 1, 1, true⟩] := by
  have h := markOnSale_spec
    ⟨[⟨"alice", 1⟩], [⟨"Sunflowers", "TAG-001", 1, 1, false⟩], []⟩ "TAG-001" true
  exact ⟨h.1.mpr ⟨⟨"Sunflowers", "TAG-001", 1, 1, false⟩, by simp, rfl⟩, by rfl⟩

/-- C9: `findPieceByUid` is total on dangling user references: when the
piece exists it always returns a dictionary, and when the piece's
`creator_id` (resp. `owner_id`) resolves to no user, the dictionary's
`creator` (resp. `owner`) entry is the Python `None`. -/
theorem findPieceByUid_dangling (s : DB) (uid : String) (p : Piece)
    (hp : s.pieces.find? (fun q => decide (q.piece_uid = uid)) = some p) :
    (findPieceByUid s uid).isSome ∧
    (findUserNameById s p.creator_id = none →
      ∃ d, findPieceByUid s uid = some d ∧ d.lookup "creator" = some Val.pyNone) ∧
    (findUserNameById s p.owner_id = none →
      ∃ d, findPieceByUid s uid = some d ∧ d.lookup "owner" = some Val.pyNone) := by
  have hd : findPieceByUid s uid = some
      [("name", Val.str p.name), ("piece_uid", Val.str p.piece_uid),
       ("creator", optName (findUserNameById s p.creator_id)),
       ("owner", optName (findUserNameById s p.owner_id)),
       ("on_sale", Val.bool p.on_sale)] := by
    simp [findPieceByUid, hp]
  refine ⟨by simp [hd], ?_, ?_⟩
  · intro hc
    refine ⟨_, hd, ?_⟩
    rw [hc]
    rfl
  · intro ho
    refine ⟨_, hd, ?_⟩
    rw [ho]
    rfl

/-- Witness for C9: a piece whose creator id 7 and owner id 9 have no user
rows resolves to a dictionary with `None` creator and owner. -/
theorem findPieceByUid_dangling_witness :
    (findPieceByUid ⟨[], [⟨"Sunflowers", "TAG-001", 7, 9, false⟩], []⟩ "TAG-001").isSome ∧
    (∃ d, findPieceByUid ⟨[], [⟨"Sunflowers", "TAG-001", 7, 9, false⟩], []⟩ "TAG-001"
        = some d ∧ d.lookup "creator" = some Val.pyNone) ∧
    (∃ d, findPieceByUid ⟨[], [⟨"Sunflowers", "TAG-001", 7, 9, false⟩], []⟩ "TAG-001"
        = some d ∧ d.lookup "owner" = some Val.pyNone) := by
  have h := findPieceByUid_dangling ⟨[], [⟨"Sunflowers", "TAG-001", 7, 9, false⟩], []⟩
    "TAG-001" ⟨"Sunflowers", "TAG-001", 7, 9, false⟩ (by rfl)
  exact ⟨h.1, h.2.1 (by rfl), h.2.2 (by rfl)⟩

/-- C6: the `/new_piece` handler fails with `NOT_FOUND` and creates nothing
when the creator id resolves to no user; when the creator exists and the uid
is fresh it succeeds, appending exactly one piece whose `owner_id` equals
the creator id and whose `on_sale` is `false`. -/
theorem new_piece_spec (s : DB) (user_id : Nat) (pname uid : String) :
    (findUserNameById s user_id = none →
      new_piece s user_id pname uid = (Status.NOT_FOUND, s)) ∧
    ((findUserNameById s user_id).isSome → (∀ p ∈ s.pieces, p.piece_uid ≠ uid) →
      new_piece s user_id pname uid =
        (Status.OK, { s with pieces := s.pieces ++ [⟨pname, uid, user_id, user_id, false⟩] })) := by
  constructor
  · intro h
    simp [new_piece, h]
  · intro h hno
    obtain ⟨nm, hnm⟩ := Option.isSome_iff_exists.mp h
    have hfind : s.pieces.find? (fun p => decide (p.piece_uid = uid)) = none := by
      rw [List.find?_eq_none]
      intro p hp
      simp [hno p hp]
    simp [new_piece, hnm, registerNewPiece, findPieceByUid, hfind]

/-- Witness for C6: an unknown creator is rejected without mutation, and a
known creator registers a piece owned by them and not on sale. -/
theorem new_piece_spec_witness :
    new_piece ⟨[⟨"alice", 1⟩], [], []⟩ 2 "Sunflowers" "TAG-001"
      = (Status.NOT_FOUND, ⟨[⟨"alice", 1⟩], [], []⟩) ∧
    new_piece ⟨[⟨"alice", 1⟩], [], []⟩ 1 "Sunflowers" "TAG-001"
      = (Status.OK, ⟨[⟨"alice", 1⟩], [⟨"Sunflowers", "TAG-001", 1, 1, false⟩], []⟩) := by
  constructor
  · exact (new_piece_spec ⟨[⟨"alice", 1⟩], [], []⟩ 2 "Sunflowers" "TAG-001").1 (by rfl)
  · exact (new_piece_spec ⟨[⟨"alice", 1⟩], [], []⟩ 1 "Sunflowers" "TAG-001").2
      (by rfl) (by simp)

/-- C5 (code defect): whenever the caller exists and the piece exists, the
`/mark_on_sale` handler raises `KeyError("owner_id")` — the dictionary built
by `findPieceByUid` has an `owner` key but no `owner_id` key — so it never
reaches the ownership comparison, never mutates `on_sale`, and never returns
`VALUE_ERROR` for a non-owner. -/
theorem mark_on_sale_crashes (s : DB) (user_id : Nat) (uid flag : String)
    (hu : pyFalsyStr (findUserNameById s user_id) = false)
    (hp : (findPieceByUid s uid).isSome) :
    mark_on_sale s user_id uid flag = Except.error (PyErr.keyError "owner_id") := by
  unfold findPieceByUid at hp
  cases hfind : s.pieces.find? (fun q => decide (q.piece_uid = uid)) with
  | none =>
    rw [hfind] at hp
    simp at hp
  | some p =>
    have hd : findPieceByUid s uid = some
        [("name", Val.str p.name), ("piece_uid", Val.str p.piece_uid),
         ("creator", optName (findUserNameById s p.creator_id)),
         ("owner", optName (findUserNameById s p.owner_id)),
         ("on_sale", Val.bool p.on_sale)] := by
      simp [findPieceByUid, hfind]
    have hl : List.lookup "owner_id"
        [("name", Val.str p.name), ("piece_uid", Val.str p.piece_uid),
         ("creator", optName (findUserNameById s p.creator_id)),
         ("owner", optName (findUserNameById s p.owner_id)),
         ("on_sale", Val.bool p.on_sale)] = none := by rfl
    unfold mark_on_sale
    rw [hu, hd]
    simp only [Bool.false_eq_true, if_false]
    rw [hl]

/-- Witness for C5: with user 1 present and piece `TAG-001` owned by user 1,
the handler call raises `KeyError` instead of toggling the flag. -/
theorem mark_on_sale_crashes_witness :
    mark_on_sale ⟨[⟨"alice", 1⟩], [⟨"Sunflowers", "TAG-001", 1, 1, false⟩], []⟩
        1 "TAG-001" "true" = Except.error (PyErr.keyError "owner_id") :=
  mark_on_sale_crashes ⟨[⟨"alice", 1⟩], [⟨"Sunflowers", "TAG-001", 1, 1, false⟩], []⟩
    1 "TAG-001" "true" (by rfl) (by rfl)

/-- C1: the spec-modelled `RecordTransaction` core succeeds iff the piece
exists and its current `owner_id` equals the claimed old owner; on success
it appends exactly one transaction record carrying the call-time timestamp
and rewrites the piece's `owner_id` to the new owner (touching no other
field and no user row); on failure the whole state is unchanged. -/
theorem recordTransaction_auth (s : DB) (uid : String) (oldo newo now : Nat) :
    ((newTransaction s uid oldo newo now).1 = true ↔
      ∃ p, s.pieces.find? (fun q => decide (q.piece_uid = uid)) = some p ∧
        p.owner_id = oldo) ∧
    ((newTransaction s uid oldo newo now).1 = true →
      (newTransaction s uid oldo newo now).2.transactions
          = s.transactions ++ [⟨uid, oldo, newo, now⟩] ∧
      (newTransaction s uid oldo newo now).2.pieces
          = s.pieces.map (setOwner uid newo) ∧
      (newTransaction s uid oldo newo now).2.users = s.users) ∧
    ((newTransaction s uid oldo newo now).1 = false →
      (newTransaction s uid oldo newo now).2 = s) := by
  cases hfind : s.pieces.find? (fun q => decide (q.piece_uid = uid)) with
  | none =>
    refine ⟨?_, ?_, ?_⟩ <;> simp [newTransaction, hfind]
  | some p =>
    by_cases ho : p.owner_id = oldo
    · refine ⟨?_, ?_, ?_⟩ <;> simp [newTransaction, hfind, ho]
    · refine ⟨?_, ?_, ?_⟩ <;> simp [newTransaction, hfind, ho]

/-- Witness for C1, replaying the spec's example scenario: the transfer from
the true owner 1 succeeds and moves ownership to 2; the repeated transfer
claiming old owner 1 then fails and changes nothing. -/
theorem recordTransaction_auth_witness :
    (newTransaction ⟨[⟨"alice", 1⟩, ⟨"bob", 2⟩], [⟨"Sunflowers", "TAG-001", 1, 1, false⟩], []⟩
        "TAG-001" 1 2 5).1 = true ∧
    (newTransaction ⟨[⟨"alice", 1⟩, ⟨"bob", 2⟩], [⟨"Sunflowers", "TAG-001", 1, 1, false⟩], []⟩
        "TAG-001" 1 2 5).2.transactions = [⟨"TAG-001", 1, 2, 5⟩] ∧
    (newTransaction ⟨[⟨"alice", 1⟩, ⟨"bob", 2⟩], [⟨"Sunflowers", "TAG-001", 1, 2, false⟩], [⟨"TAG-001", 1, 2, 5⟩]⟩
        "TAG-001" 1 2 9).1 = false ∧
    (newTransaction ⟨[⟨"alice", 1⟩, ⟨"bob", 2⟩], [⟨"Sunflowers", "TAG-001", 1, 2, false⟩], [⟨"TAG-001", 1, 2, 5⟩]⟩
        "TAG-001" 1 2 9).2
      = ⟨[⟨"alice", 1⟩, ⟨"bob", 2⟩], [⟨"Sunflowers", "TAG-001", 1, 2, false⟩], [⟨"TAG-001", 1, 2, 5⟩]⟩ := by
  have h1 := recordTransaction_auth
    ⟨[⟨"alice", 1⟩, ⟨"bob", 2⟩], [⟨"Sunflowers", "TAG-001", 1, 1, false⟩], []⟩ "TAG-001" 1 2 5
  have h2 := recordTransaction_auth
    ⟨[⟨"alice", 1⟩, ⟨"bob", 2⟩], [⟨"Sunflowers", "TAG-001", 1, 2, false⟩], [⟨"TAG-001", 1, 2, 5⟩]⟩
    "TAG-001" 1 2 9
  have hs1 : (newTransaction
      ⟨[⟨"alice", 1⟩, ⟨"bob", 2⟩], [⟨"Sunflowers", "TAG-001", 1, 1, false⟩], []⟩
      "TAG-001" 1 2 5).1 = true :=
    h1.1.mpr ⟨⟨"Sunflowers", "TAG-001", 1, 1, false⟩, by rfl, rfl⟩
  have hs2 : (newTransaction
      ⟨[⟨"alice", 1⟩, ⟨"bob", 2⟩], [⟨"Sunflowers", "TAG-001", 1, 2, false⟩], [⟨"TAG-001", 1, 2, 5⟩]⟩
      "TAG-001" 1 2 9).1 = false := by rfl
  exact ⟨hs1, (h1.2.1 hs1).1, hs2, h2.2.2 hs2⟩

/-- C7: the `/get_piece_transactions` handler returns `NOT_FOUND` exactly
when no transaction for the uid is stored, and otherwise `OK` with the views
of exactly the stored transactions of that uid, in store (insertion) order;
and since every core operation only ever appends to the Transactions store,
store order is recording order. -/
theorem listTransactions_spec (s : DB) (uid : String) (m : Nat) (op : Op) :
    (s.transactions.filter (fun t => decide (t.piece_uid = uid)) = [] →
      get_piece_transactions s uid = (Status.NOT_FOUND, none)) ∧
    (s.transactions.filter (fun t => decide (t.piece_uid = uid)) ≠ [] →
      get_piece_transactions s uid = (Status.OK,
        some ((s.transactions.filter (fun t => decide (t.piece_uid = uid))).map
          (fun r => ⟨optName (findUserNameById s r.old_owner_id),
                     optName (findUserNameById s r.new_owner_id), r.dt⟩)))) ∧
    (∃ ts, (applyOp m s op).transactions = s.transactions ++ ts) := by
  refine ⟨?_, ?_, ?_⟩
  · intro h
    simp [get_piece_transactions, getTransactions, pyFalsyList, h]
  · intro h
    cases hl : s.transactions.filter (fun t => decide (t.piece_uid = uid)) with
    | nil => exact absurd hl h
    | cons a l =>
      simp [get_piece_transactions, getTransactions, pyFalsyList, hl]
  · cases op with
    | newUserOp n =>
      refine ⟨[], ?_⟩
      simp only [applyOp, newUser]
      split <;> simp
    | registerPieceOp n u c =>
      refine ⟨[], ?_⟩
      simp only [applyOp, registerNewPiece]
      split <;> simp
    | markOnSaleOp u f =>
      exact ⟨[], by simp [applyOp, markOnSale]⟩
    | newTransactionOp u o n t =>
      simp only [applyOp, newTransaction]
      cases s.pieces.find? (fun p => decide (p.piece_uid = u)) with
      | none => exact ⟨[], by simp⟩
      | some p =>
        by_cases ho : p.owner_id = o
        · exact ⟨[⟨u, o, n, t⟩], by simp [ho]⟩
        · exact ⟨[], by simp [ho]⟩

/-- Witness for C7: an empty history answers `NOT_FOUND`; a history of one
matching and one non-matching record answers `OK` with exactly the matching
record's view. -/
theorem listTransactions_spec_witness :
    get_piece_transactions ⟨[⟨"alice", 1⟩], [⟨"Sunflowers", "TAG-001", 1, 1, false⟩], []⟩
        "TAG-001" = (Status.NOT_FOUND, none) ∧
    get_piece_transactions
        ⟨[⟨"alice", 1⟩, ⟨"bob", 2⟩], [⟨"Sunflowers", "TAG-001", 1, 2, false⟩],
         [⟨"TAG-001", 1, 2, 5⟩, ⟨"TAG-002", 2, 1, 6⟩]⟩ "TAG-001"
      = (Status.OK, some [⟨Val.str "alice", Val.str "bob", 5⟩]) := by
  constructor
  · exact (listTransactions_spec ⟨[⟨"alice", 1⟩], [⟨"Sunflowers", "TAG-001", 1, 1, false⟩], []⟩
      "TAG-001" 0 (Op.newUserOp "x")).1 (by rfl)
  · have h := (listTransactions_spec
      ⟨[⟨"alice", 1⟩, ⟨"bob", 2⟩], [⟨"Sunflowers", "TAG-001", 1, 2, false⟩],
       [⟨"TAG-001", 1, 2, 5⟩, ⟨"TAG-002", 2, 1, 6⟩]⟩ "TAG-001" 0 (Op.newUserOp "x")).2.1
      (by simp)
    simpa using h

/-- C8: the `/get_user_id` handler is not read-only: given a nonempty
username absent from a store whose user ids are all positive, it creates a
new user with that name (consuming the next id `max + 1`) and answers `OK`
with the new id, answering `VALUE_ERROR` exactly when `newUser` itself
refuses (capacity); for a name already present it answers `OK` with the
first-match id and leaves the state unchanged. -/
theorem get_user_id_spec (m : Nat) (s : DB) (username : String)
    (hn : username ≠ "") (hpos : ∀ u ∈ s.users, 1 ≤ u.user_id) :
    (∀ i, findUserIdByName s username = some i →
      get_user_id m s username = ((Status.OK, some i), s)) ∧
    (findUserIdByName s username = none →
      (m ≤ maxUserIdOf s + 1 →
        get_user_id m s username = ((Status.VALUE_ERROR, none), s)) ∧
      (maxUserIdOf s + 1 < m →
        get_user_id m s username =
          ((Status.OK, some (maxUserIdOf s + 1)),
            { s with users := s.users ++ [⟨username, maxUserIdOf s + 1⟩] }))) := by
  constructor
  · intro i hi
    have hipos : 1 ≤ i := by
      unfold findUserIdByName at hi
      cases hf : s.users.find? (fun u => decide (u.name = username)) with
      | none =>
        rw [hf] at hi
        simp at hi
      | some u =>
        rw [hf] at hi
        simp at hi
        have := hpos u (List.mem_of_find?_eq_some hf)
        omega
    have hfalsy : pyFalsy (some i) = false := by
      simp [pyFalsy]
      omega
    simp [get_user_id, hn, hi, hfalsy]
  · intro hnone
    constructor
    · intro hcap
      simp [get_user_id, hn, hnone, pyFalsy, newUser, hcap]
    · intro hcap
      have h2 : ¬ m ≤ maxUserIdOf s + 1 := by omega
      simp [get_user_id, hn, hnone, pyFalsy, newUser, h2]

/-- Witness for C8: with only `alice` (id 1) stored and capacity 100,
querying `alice` is read-only and returns 1, while querying `bob` creates
user 2 and returns it. -/
theorem get_user_id_spec_witness :
    get_user_id 100 ⟨[⟨"alice", 1⟩], [], []⟩ "alice" = ((Status.OK, some 1), ⟨[⟨"alice", 1⟩], [], []⟩) ∧
    get_user_id 100 ⟨[⟨"alice", 1⟩], [], []⟩ "bob"
      = ((Status.OK, some 2), ⟨[⟨"alice", 1⟩, ⟨"bob", 2⟩], [], []⟩) := by
  constructor
  · exact (get_user_id_spec 100 ⟨[⟨"alice", 1⟩], [], []⟩ "alice" (by simp) (by simp)).1 1 (by rfl)
  · have h := ((get_user_id_spec 100 ⟨[⟨"alice", 1⟩], [], []⟩ "bob" (by simp) (by simp)).2
      (by rfl)).2 (by simp [maxUserIdOf])
    simpa [maxUserIdOf] using h

/-- C2: in every reachable state, each piece's `owner_id` equals the
`new_owner_id` of the most recent transaction recorded for its uid, or its
`creator_id` when no transaction for it exists; and a successful
registration creates the piece with `owner_id = creator_id`. -/
theorem ownership_invariant (m : Nat) (ops : List Op) (s : DB) (n uid : String) (cid : Nat) :
    (∀ p ∈ (run m initDB ops).pieces,
      p.owner_id = specOwner (run m initDB ops).transactions p) ∧
    ((registerNewPiece s n uid cid).1 = true →
      (⟨n, uid, cid, cid, false⟩ : Piece) ∈ (registerNewPiece s n uid cid).2.pieces) := by
  constructor
  · exact (inv_run m ops).ownerOK
  · intro hs
    by_cases hc : (findPieceByUid s uid).isSome = true
    · exfalso
      unfold registerNewPiece at hs
      rw [if_pos hc] at hs
      exact Bool.false_ne_true hs
    · unfold registerNewPiece
      rw [if_neg hc]
      simp

/-- Witness for C2: after creating alice and bob, registering `TAG-001` by
alice and transferring it to bob, the stored piece's owner 2 agrees with the
transaction log. -/
theorem ownership_invariant_witness :
    (⟨"Sunflowers", "TAG-001", 1, 2, false⟩ : Piece).owner_id
      = specOwner (run 100 initDB
          [Op.newUserOp "alice", Op.newUserOp "bob",
           Op.registerPieceOp "Sunflowers" "TAG-001" 1,
           Op.newTransactionOp "TAG-001" 1 2 5]).transactions
        ⟨"Sunflowers", "TAG-001", 1, 2, false⟩ := by
  have h := ownership_invariant 100
    [Op.newUserOp "alice", Op.newUserOp "bob",
     Op.registerPieceOp "Sunflowers" "TAG-001" 1,
     Op.newTransactionOp "TAG-001" 1 2 5] initDB "x" "T" 0
  exact h.1 ⟨"Sunflowers", "TAG-001", 1, 2, false⟩ (by decide)

/-- C3: `newUser` assigns `max(existing ids) + 1` (so `1` on an empty
store), fails by returning `None` exactly when this id reaches the
configured bound — consuming no id and writing nothing — and on success
appends one record whose id is strictly greater than every stored id;
consequently along any run the stored user ids are strictly increasing and
positive. -/
theorem newUser_monotonic (m : Nat) (s : DB) (n : String) (ops : List Op) :
    ((newUser m s n).1
      = if m ≤ maxUserIdOf s + 1 then none else some (maxUserIdOf s + 1)) ∧
    (s.users = [] → (newUser m s n).1 = if m ≤ 1 then none else some 1) ∧
    ((newUser m s n).1 = none → (newUser m s n).2 = s) ∧
    (∀ i, (newUser m s n).1 = some i →
      (newUser m s n).2.users = s.users ++ [⟨n, i⟩] ∧ ∀ u ∈ s.users, u.user_id < i) ∧
    (((run m initDB ops).users.map (fun u => u.user_id)).Pairwise (· < ·)) ∧
    (∀ u ∈ (run m initDB ops).users, 1 ≤ u.user_id) := by
  have h1 : (newUser m s n).1
      = if m ≤ maxUserIdOf s + 1 then none else some (maxUserIdOf s + 1) := by
    by_cases hc : m ≤ maxUserIdOf s + 1 <;> simp [newUser, hc]
  refine ⟨h1, ?_, ?_, ?_, (inv_run m ops).usersSorted, (inv_run m ops).usersPos⟩
  · intro he
    have h0 : maxUserIdOf s = 0 := by simp [maxUserIdOf, he]
    rw [h1, h0]
  · intro hnone
    by_cases hc : m ≤ maxUserIdOf s + 1
    · simp [newUser, hc]
    · rw [h1, if_neg hc] at hnone
      cases hnone
  · intro i hi
    by_cases hc : m ≤ maxUserIdOf s + 1
    · rw [h1, if_pos hc] at hi
      cases hi
    · rw [h1, if_neg hc] at hi
      injection hi with hi
      subst hi
      constructor
      · simp [newUser, hc]
      · intro u hu
        have := user_id_le_maxUserIdOf s u hu
        omega

/-- Witness for C3: with ids 1 and 2 stored and bound 3, the next id 3
reaches the bound, so creation fails and consumes nothing; with only id 1
stored the assigned id is 2. -/
theorem newUser_monotonic_witness :
    (newUser 3 ⟨[⟨"alice", 1⟩, ⟨"bob", 2⟩], [], []⟩ "carol").1 = none ∧
    (newUser 3 ⟨[⟨"alice", 1⟩, ⟨"bob", 2⟩], [], []⟩ "carol").2
      = ⟨[⟨"alice", 1⟩, ⟨"bob", 2⟩], [], []⟩ ∧
    (newUser 3 ⟨[⟨"alice", 1⟩], [], []⟩ "bob").1 = some 2 := by
  have h := newUser_monotonic 3 ⟨[⟨"alice", 1⟩, ⟨"bob", 2⟩], [], []⟩ "carol" []
  refine ⟨?_, ?_, by rfl⟩
  · rw [h.1]
    rfl
  · exact h.2.2.1 (by rw [h.1]; rfl)

/-- C4: along any run piece uids are pairwise distinct — at most one piece
with a given uid ever exists — and a registration whose uid is already
present always returns `false` (reported as `ALREADY_EXISTS` by the
`/new_piece` handler) with the whole state, in particular the original
piece, unchanged. -/
theorem piece_uid_unique (m : Nat) (ops : List Op) (s : DB) (n uid : String) (cid : Nat) :
    (((run m initDB ops).pieces.map (fun p => p.piece_uid)).Nodup) ∧
    ((∃ p ∈ s.pieces, p.piece_uid = uid) →
      registerNewPiece s n uid cid = (false, s)) ∧
    ((findUserNameById s cid).isSome → (∃ p ∈ s.pieces, p.piece_uid = uid) →
      new_piece s cid n uid = (Status.ALREADY_EXISTS, s)) := by
  have hreg : (∃ p ∈ s.pieces, p.piece_uid = uid) →
      registerNewPiece s n uid cid = (false, s) := by
    intro ⟨p, hp, hpe⟩
    have hsome : (findPieceByUid s uid).isSome = true := by
      unfold findPieceByUid
      cases hf : s.pieces.find? (fun q => decide (q.piece_uid = uid)) with
      | some q => rfl
      | none =>
        have := List.find?_eq_none.mp hf p hp
        simp [hpe] at this
    unfold registerNewPiece
    rw [if_pos hsome]
  refine ⟨(inv_run m ops).uidsNodup, hreg, ?_⟩
  intro hu hex
  obtain ⟨nm, hnm⟩ := Option.isSome_iff_exists.mp hu
  have hr := hreg hex
  simp [new_piece, hnm, hr]

/-- Witness for C4: re-registering `TAG-001` fails at the manager level and
is reported as `ALREADY_EXISTS` by the handler, both without mutation. -/
theorem piece_uid_unique_witness :
    registerNewPiece ⟨[⟨"alice", 1⟩], [⟨"Sunflowers", "TAG-001", 1, 1, false⟩], []⟩
        "Copy" "TAG-001" 1
      = (false, ⟨[⟨"alice", 1⟩], [⟨"Sunflowers", "TAG-001", 1, 1, false⟩], []⟩) ∧
    new_piece ⟨[⟨"alice", 1⟩], [⟨"Sunflowers", "TAG-001", 1, 1, false⟩], []⟩ 1 "Copy" "TAG-001"
      = (Status.ALREADY_EXISTS,
         ⟨[⟨"alice", 1⟩], [⟨"Sunflowers", "TAG-001", 1, 1, false⟩], []⟩) := by
  have h := piece_uid_unique 100 []
    ⟨[⟨"alice", 1⟩], [⟨"Sunflowers", "TAG-001", 1, 1, false⟩], []⟩ "Copy" "TAG-001" 1
  exact ⟨h.2.1 ⟨⟨"Sunflowers", "TAG-001", 1, 1, false⟩, by simp, rfl⟩,
    h.2.2 (by rfl) ⟨⟨"Sunflowers", "TAG-001", 1, 1, false⟩, by simp, rfl⟩⟩

end ArtRegister
